import Mathlib

/-
Verification of the maelstrom distributed-systems-challenges node against its
specification.

The development shallow-embeds the Rust sources:
  - src/main.rs : the node runtime, protocol state machine, gossip broadcast
    engine (Node, Payload, Message, Body, NodeError, MaelstromError);
  - src/storage.rs : the networked storage backend (Storage, ClientPacket).

Modelling conventions:
  - the build is modelled with both the broadcast and the counter cargo
    features enabled, so every Payload variant and every Node field is present;
  - i32 arithmetic wraps (release-mode two-complement semantics), made explicit
    through wrap32; u32 likewise through a modulus;
  - Uuid.new_v4 draws a fresh random 128-bit token; it is modelled as a draw
    from an injective per-process supply: the Node carries a seed counter and
    each draw returns the seed and bumps it (only freshness and distinctness of
    the tokens matter to the program logic);
  - serde_json.Value is modelled by JsonValue; deserializing Vec<String> from a
    value succeeds exactly on an array of strings;
  - stateful methods become state-passing functions; messages written to the
    network are collected in output lists, in write order.
-/

/-- Two-complement wrap of an unbounded integer into the i32 range. -/
def wrap32 (x : Int) : Int := (x + 2 ^ 31) % 2 ^ 32 - 2 ^ 31

/-- Model of serde_json.Value (src/main.rs uses it for the topology field). -/
inductive JsonValue
  | null
  | bool (b : Bool)
  | num (n : Int)
  | str (s : String)
  | arr (elems : List JsonValue)
  | obj (fields : List (String × JsonValue))

/-- serde_json deserialization of Vec<String> from a value: succeeds exactly
on an array whose elements are all strings (src/main.rs line 247). -/
def asStringList : JsonValue → Option (List String)
  | .arr xs =>
    xs.foldr
      (fun x acc =>
        match x, acc with
        | .str s, some l => some (s :: l)
        | _, _ => none)
      (some [])
  | _ => none

/-- MaelstromError enum of src/main.rs (serde_repr, codes in the u8 repr). -/
inductive MaelstromError
  | Timeout
  | NodeNotFound
  | NotSupported
  | TemporarilyUnavailable
  | MalformedRequest
  | Crash
  | Abort
  | KeyDoesNotExist
  | KeyAlreadyExists
  | PreconditionFailed
  | TxnConflict
deriving DecidableEq

/-- Numeric code of each MaelstromError variant (the repr(u8) values). -/
def MaelstromError.code : MaelstromError → Nat
  | .Timeout => 0
  | .NodeNotFound => 1
  | .NotSupported => 10
  | .TemporarilyUnavailable => 11
  | .MalformedRequest => 12
  | .Crash => 13
  | .Abort => 14
  | .KeyDoesNotExist => 20
  | .KeyAlreadyExists => 21
  | .PreconditionFailed => 22
  | .TxnConflict => 30

/-- NodeState enum of src/main.rs. -/
inductive NodeState
  | Created
  | Initialized
deriving DecidableEq

/-- NodeError enum of src/main.rs. -/
inductive NodeError
  | UnacceptablePayloadType (what : String) (st : NodeState)
  | CurrentlyUnsupported
  | IllegalPayloadType
  | IllegalPayload
  | NodeIdMismatch
  | DontReply
deriving DecidableEq

/-- Payload enum of src/main.rs, every feature enabled. Uuid fields are the
Nat tokens of the modelled uuid supply; i32 payload fields are Int. -/
inductive Payload
  | Init (node_id : String) (node_ids : List String)
  | InitOk
  | Echo (echo : String)
  | EchoOk (echo : String)
  | Generate
  | GenerateOk (id : Nat)
  | Broadcast (message : Int)
  | BroadcastOk
  | Add (delta : Nat)
  | AddOk
  | Read
  | ReadOk (messages : List Int) (value : Nat)
  | Topology (topology : JsonValue)
  | TopologyOk
  | Rumor (id : Nat) (data : Int)
  | RumorOk
  | Error (code : MaelstromError) (text : String)

/-- Body struct of src/main.rs. -/
structure Body where
  msg_id : Option Int
  in_reply_to : Option Int
  payload : Payload

/-- Message struct of src/main.rs. -/
structure Message where
  src : String
  dst : String
  body : Body

/-- Node struct of src/main.rs (all features; input/output handled by the
state-passing embedding; uuidSeed models the process randomness supply). -/
structure Node where
  state : NodeState
  next_message_id : Int
  id : Option String
  all_node_ids : List String
  broadcast_messages : List Int
  heard_rumors : List Nat
  grow_value : Nat
  neighbours : List String
  uuidSeed : Nat

/-- Node.new of src/main.rs: Created state, counter seeded at i32::MIN,
everything else empty. -/
def Node.new : Node :=
  { state := .Created
    next_message_id := -(2 ^ 31)
    id := none
    all_node_ids := []
    broadcast_messages := []
    heard_rumors := []
    grow_value := 0
    neighbours := []
    uuidSeed := 0 }

/-- Node.next_message_id method of src/main.rs: increment (wrapping i32),
then return the new value. -/
def Node.nextMessageId (n : Node) : Int × Node :=
  let v := wrap32 (n.next_message_id + 1)
  (v, { n with next_message_id := v })

/-- Uuid.new_v4 as used in src/main.rs: a fresh token from the modelled
injective supply. -/
def Node.newUuid (n : Node) : Nat × Node :=
  (n.uuidSeed, { n with uuidSeed := n.uuidSeed + 1 })

/-- Node.wrap_payload of src/main.rs: draw the next message id, use the own
node id as src when initialized (the caller-provided src otherwise). -/
def Node.wrap_payload (n : Node) (payload : Payload) (src dst : String)
    (msg_id : Option Int) : Message × Node :=
  let r := n.nextMessageId
  ({ src :=
       match r.2.id with
       | some id => id
       | none => src
     dst := dst
     body := { msg_id := some r.1, in_reply_to := msg_id, payload := payload } },
   r.2)

/-- Loop body of Node.spread of src/main.rs: wrap the payload for each
neighbour in turn and send it. -/
def spreadAux (n : Node) (payload : Payload) (id : String) :
    List String → Node × List Message
  | [] => (n, [])
  | nb :: rest =>
    let r := n.wrap_payload payload id nb none
    let rec' := spreadAux r.2 payload id rest
    (rec'.1, r.1 :: rec'.2)

/-- Node.spread of src/main.rs: no-op without an id, otherwise forward the
payload to every current neighbour. -/
def Node.spread (n : Node) (payload : Payload) : Node × List Message :=
  match n.id with
  | none => (n, [])
  | some id => spreadAux n payload id n.neighbours

/-- Debug formatting of NodeState (the {:#?} text used in error messages). -/
def NodeState.debugText : NodeState → String
  | .Created => "Created"
  | .Initialized => "Initialized"

/-- Debug formatting of NodeError, as produced by format!({err:#?}) in
Node.wrap_err of src/main.rs. No claim depends on the exact text. -/
def NodeError.debugText : NodeError → String
  | .UnacceptablePayloadType what st =>
      "UnacceptablePayloadType(" ++ what ++ ", " ++ st.debugText ++ ")"
  | .CurrentlyUnsupported => "CurrentlyUnsupported"
  | .IllegalPayloadType => "IllegalPayloadType"
  | .IllegalPayload => "IllegalPayload"
  | .NodeIdMismatch => "NodeIdMismatch"
  | .DontReply => "DontReply"

/-- Node.wrap_err of src/main.rs: map a NodeError to an error payload. The
DontReply arm is unreachable! in the source (build_reply filters it out
first); the model gives it an arbitrary value on that dead branch. -/
def Node.wrap_err (err : NodeError) : Payload :=
  Payload.Error
    (match err with
     | .UnacceptablePayloadType _ _ => .MalformedRequest
     | .IllegalPayloadType => .MalformedRequest
     | .IllegalPayload => .MalformedRequest
     | .NodeIdMismatch => .MalformedRequest
     | .CurrentlyUnsupported => .NotSupported
     | .DontReply => .Crash)
    err.debugText

/-- Payload dispatch of Node.proceed_message of src/main.rs (the match over
message.body.payload, after the node-id check). Returns the mutated node, the
messages sent while processing (by spread), and the Result. -/
def Node.dispatchPayload (n : Node) (msg : Message) :
    Node × List Message × Except NodeError Payload :=
  match msg.body.payload with
  | .Init node_id node_ids =>
    if n.state ≠ .Created then
      (n, [], .error (.UnacceptablePayloadType "Init" n.state))
    else
      ({ n with id := some node_id, all_node_ids := node_ids,
                state := .Initialized },
       [], .ok .InitOk)
  | .Echo echo =>
    if n.state ≠ .Initialized then
      (n, [], .error (.UnacceptablePayloadType "Echo" n.state))
    else
      (n, [], .ok (.EchoOk echo))
  | .Generate =>
    let r := n.newUuid
    (r.2, [], .ok (.GenerateOk r.1))
  | .Broadcast message =>
    let n1 := { n with broadcast_messages := n.broadcast_messages ++ [message] }
    let r := n1.newUuid
    let n2 := { r.2 with heard_rumors := r.2.heard_rumors ++ [r.1] }
    let s := n2.spread (.Rumor r.1 message)
    (s.1, s.2, .ok .BroadcastOk)
  | .Add delta =>
    ({ n with grow_value := (n.grow_value + delta) % 2 ^ 32 }, [], .ok .AddOk)
  | .Read =>
    (n, [], .ok (.ReadOk n.broadcast_messages n.grow_value))
  | .Topology topology =>
    match n.id with
    | none => (n, [], .error (.UnacceptablePayloadType "Topology" n.state))
    | some id =>
      match topology with
      | .obj fields =>
        match fields.lookup id with
        | none => (n, [], .error .IllegalPayload)
        | some v =>
          match asStringList v with
          | none => (n, [], .error .IllegalPayload)
          | some top => ({ n with neighbours := top }, [], .ok .TopologyOk)
      | _ => (n, [], .error .IllegalPayload)
  | .Rumor id data =>
    if n.heard_rumors.contains id then
      (n, [], .ok .RumorOk)
    else
      let n1 := { n with broadcast_messages := n.broadcast_messages ++ [data],
                         heard_rumors := n.heard_rumors ++ [id] }
      let s := n1.spread (.Rumor id data)
      (s.1, s.2, .ok .RumorOk)
  | .Error _ _ => (n, [], .error .IllegalPayloadType)
  | .EchoOk _ => (n, [], .error .DontReply)
  | .InitOk => (n, [], .error .DontReply)
  | .BroadcastOk => (n, [], .error .DontReply)
  | .ReadOk _ _ => (n, [], .error .DontReply)
  | .TopologyOk => (n, [], .error .DontReply)
  | .AddOk => (n, [], .error .DontReply)
  | .RumorOk => (n, [], .error .DontReply)
  | .GenerateOk _ => (n, [], .error .DontReply)

/-- Node.proceed_message of src/main.rs: once an id is set, reject envelopes
whose dst disagrees with it, then dispatch on the payload. -/
def Node.proceed_message (n : Node) (msg : Message) :
    Node × List Message × Except NodeError Payload :=
  match n.id with
  | some id =>
    if id ≠ msg.dst then (n, [], .error .NodeIdMismatch)
    else n.dispatchPayload msg
  | none => n.dispatchPayload msg

/-- Node.build_reply of src/main.rs: run proceed_message; a DontReply error
yields no reply, any other error is wrapped into an error payload; the reply
swaps src and dst and echoes msg_id into in_reply_to. -/
def Node.build_reply (n : Node) (msg : Message) :
    Node × List Message × Option Message :=
  let dst := msg.dst
  let src := msg.src
  let msg_id := msg.body.msg_id
  let r := n.proceed_message msg
  match r.2.2 with
  | .error .DontReply => (r.1, r.2.1, none)
  | .error e =>
    let w := r.1.wrap_payload (Node.wrap_err e) dst src msg_id
    (w.2, r.2.1, some w.1)
  | .ok payload =>
    let w := r.1.wrap_payload payload dst src msg_id
    (w.2, r.2.1, some w.1)

/-- Node.handle_message of src/main.rs: the messages sent while processing,
then the reply (when there is one), in network write order. -/
def Node.handle_message (n : Node) (msg : Message) : Node × List Message :=
  let r := n.build_reply msg
  (r.1, r.2.1 ++ r.2.2.toList)

/-- The payload of the reply (if any) that handling msg produces. -/
def Node.replyPayload (n : Node) (msg : Message) : Option Payload :=
  ((n.build_reply msg).2.2).map (fun m => m.body.payload)

/-- The message loop of Node.run of src/main.rs over a list of successfully
parsed envelopes, collecting every message written to the network. -/
def Node.handle_all (n : Node) : List Message → Node × List Message
  | [] => (n, [])
  | m :: rest =>
    let r := n.handle_message m
    let r2 := r.1.handle_all rest
    (r2.1, r.2 ++ r2.2)

/-
Networked storage backend, src/storage.rs. The DashMap<String, Vec<usize>> is
modelled as an association list; mapGet and mapInsert model DashMap.get /
get_mut and DashMap.insert (insert replaces any existing value).
-/

/-- The backend store: key to log of values (DashMap<String, Vec<usize>>). -/
def SMap : Type := List (String × List Nat)

/-- DashMap lookup. -/
def mapGet (m : SMap) (k : String) : Option (List Nat) :=
  match m with
  | [] => none
  | (k2, v) :: rest => if k2 = k then some v else mapGet rest k

/-- DashMap insert: replaces the value of an existing key, appends otherwise. -/
def mapInsert (m : SMap) (k : String) (v : List Nat) : SMap :=
  match m with
  | [] => [(k, v)]
  | (k2, v2) :: rest =>
    if k2 = k then (k2, v) :: rest else (k2, v2) :: mapInsert rest k v

/-- The ClientPacket::Store arm of Storage::run (src/storage.rs lines 62-74),
as one sequential operation: push onto the existing log and return its new
length minus one, or insert a singleton log and return 0. -/
def storeOp (m : SMap) (key : String) (msg : Nat) : SMap × Nat :=
  match mapGet m key with
  | some v => (mapInsert m key (v ++ [msg]), (v ++ [msg]).length - 1)
  | none => (mapInsert m key [msg], 0)

/-- The ClientPacket::Get arm of Storage::run (src/storage.rs lines 76-86):
the slice of the log of key from offset on when the log is longer than
offset, the empty list otherwise. -/
def getOp (m : SMap) (key : String) (offset : Nat) : List Nat :=
  match mapGet m key with
  | some v => if v.length > offset then v.drop offset else []
  | none => []

/-- A sequence of sequential Store operations on one key: the final map and
the list of offsets returned, in call order. -/
def storeAll (m : SMap) (key : String) : List Nat → SMap × List Nat
  | [] => (m, [])
  | msg :: rest =>
    let r := storeOp m key msg
    let r2 := storeAll r.1 key rest
    (r2.1, r.2 :: r2.2)

/-
Fine-grained interleaving model of concurrent Store handlers of src/storage.rs.
Each connection task runs the Store arm. When the key is present, get_mut
holds the DashMap shard guard across the push and the len read, so that branch
is one atomic step. When get_mut returns None, no guard is held between the
absence observation and the later insert, so those are two separate steps; the
insert (DashMap::insert) replaces whatever log another task put there in
between. A schedule is the list of the thread indices in execution order.
-/

/-- The control point of one Store(key, msg) handler task. -/
inductive StoreThread
  | ready (key : String) (msg : Nat)
  | willInsert (key : String) (msg : Nat)
  | done (offset : Nat)
deriving DecidableEq

/-- Shared store plus the per-connection Store tasks. -/
structure BackendConfig where
  map : SMap
  threads : List StoreThread

/-- One atomic step of thread i (no-op on finished or absent threads). -/
def stepThread (c : BackendConfig) (i : Nat) : BackendConfig :=
  match c.threads.get? i with
  | none => c
  | some t =>
    match t with
    | .ready key msg =>
      match mapGet c.map key with
      | some v =>
        { map := mapInsert c.map key (v ++ [msg])
          threads := c.threads.set i (.done ((v ++ [msg]).length - 1)) }
      | none => { c with threads := c.threads.set i (.willInsert key msg) }
    | .willInsert key msg =>
      { map := mapInsert c.map key [msg]
        threads := c.threads.set i (.done 0) }
    | .done _ => c

/-- Run a schedule of thread indices. -/
def runSched (c : BackendConfig) : List Nat → BackendConfig
  | [] => c
  | i :: rest => runSched (stepThread c i) rest

/-
Commit-log storage engine. Modelled from the spec: the send / poll /
commit_offsets / list_committed_offsets payloads and the commit-log engine of
spec section 4.4 are absent from src/ (the Payload enum of src/main.rs has no
such variants); the definitions below follow the words of the spec. The
commit-offset store is a mapping from key to the last committed offset,
entirely independent of the log store.
-/

/-- Modelled from the spec: the state of the commit-log storage engine of
section 4.4 (absent from src/): per-key append-only logs and the separate
commit-offset bookmark map. -/
structure CommitLog where
  logs : List (String × List Nat)
  commits : List (String × Nat)

/-- Modelled from the spec: overwrite one bookmark (insert or replace). -/
def setCommit (commits : List (String × Nat)) (k : String) (v : Nat) :
    List (String × Nat) :=
  match commits with
  | [] => [(k, v)]
  | (k2, v2) :: rest =>
    if k2 = k then (k2, v) :: rest else (k2, v2) :: setCommit rest k v

/-- Modelled from the spec: CommitOffsets unconditionally overwrites the
commit bookmark for each named key with the given value, regardless of
relation to the actual log length; no validation that the offset exists. -/
def commitOffsets (st : CommitLog) (offsets : List (String × Nat)) : CommitLog :=
  { st with
    commits := offsets.foldl (fun acc kv => setCommit acc kv.1 kv.2) st.commits }

/-- Modelled from the spec: ListCommittedOffsets returns the bookmark for each
requested key that has one recorded; keys with no bookmark are omitted. -/
def listCommittedOffsets (st : CommitLog) (keys : List String) :
    List (String × Nat) :=
  keys.filterMap (fun k =>
    match st.commits.lookup k with
    | some v => some (k, v)
    | none => none)

/-
Helper lemmas about the embedding.
-/

/-- spreadAux only advances the message-id counter: every other Node field is
preserved. -/
theorem spreadAux_fields (l : List String) (n : Node) (p : Payload) (i : String) :
    (spreadAux n p i l).1.state = n.state ∧
    (spreadAux n p i l).1.id = n.id ∧
    (spreadAux n p i l).1.all_node_ids = n.all_node_ids ∧
    (spreadAux n p i l).1.broadcast_messages = n.broadcast_messages ∧
    (spreadAux n p i l).1.heard_rumors = n.heard_rumors ∧
    (spreadAux n p i l).1.grow_value = n.grow_value ∧
    (spreadAux n p i l).1.neighbours = n.neighbours ∧
    (spreadAux n p i l).1.uuidSeed = n.uuidSeed := by
  induction l generalizing n with
  | nil => simp [spreadAux]
  | cons nb rest ih =>
    simpa [spreadAux, Node.wrap_payload, Node.nextMessageId] using
      ih { n with next_message_id := wrap32 (n.next_message_id + 1) }

/-- The messages spreadAux emits: one per listed neighbour, in list order,
addressed to that neighbour, from the own node id, carrying the payload. -/
theorem spreadAux_outs (l : List String) (n : Node) (p : Payload) (i : String)
    (h : n.id = some i) :
    ((spreadAux n p i l).2.map fun m => m.dst) = l ∧
    ((spreadAux n p i l).2.map fun m => m.src) = l.map (fun _ => i) ∧
    ((spreadAux n p i l).2.map fun m => m.body.payload) = l.map (fun _ => p) := by
  induction l generalizing n with
  | nil => simp [spreadAux]
  | cons nb rest ih =>
    have h2 : ({ n with next_message_id := wrap32 (n.next_message_id + 1)} : Node).id
        = some i := h
    simpa [spreadAux, Node.wrap_payload, Node.nextMessageId, h, h2] using
      ih { n with next_message_id := wrap32 (n.next_message_id + 1) } h2

/-- Looking up the key just overwritten by setCommit yields the new value. -/
theorem lookup_setCommit (c : List (String × Nat)) (k : String) (v : Nat) :
    (setCommit c k v).lookup k = some v := by
  induction c with
  | nil => simp [setCommit, List.lookup]
  | cons kv rest ih =>
    by_cases hk : kv.1 = k
    · simp [setCommit, hk, List.lookup]
    · have hb : (k == kv.1) = false := by
        simp [Ne.symm hk]
      simp only [setCommit]
      rw [if_neg hk]
      simpa [List.lookup, hb] using ih

/-- mapInsert then mapGet on the same key yields the inserted value. -/
theorem mapGet_mapInsert_self (m : SMap) (k : String) (v : List Nat) :
    mapGet (mapInsert m k v) k = some v := by
  induction m with
  | nil => simp [mapInsert, mapGet]
  | cons kv rest ih =>
    by_cases hk : kv.1 = k
    · simp [mapInsert, mapGet, hk]
    · simp [mapInsert, mapGet, hk, ih]

/-- mapInsert leaves every other key unchanged. -/
theorem mapGet_mapInsert_other (m : SMap) (k k2 : String) (v : List Nat)
    (h : k2 ≠ k) : mapGet (mapInsert m k v) k2 = mapGet m k2 := by
  induction m with
  | nil => simp [mapInsert, mapGet, Ne.symm h]
  | cons kv rest ih =>
    by_cases hk : kv.1 = k
    · simp [mapInsert, mapGet, hk, Ne.symm h]
    · by_cases hk2 : kv.1 = k2
      · subst hk2
        simp [mapInsert, mapGet, hk, ih]
      · simp [mapInsert, mapGet, hk, hk2, ih]

/-- One sequential Store appends to the log of its key and returns the length
of that log immediately before the append. -/
theorem storeOp_spec (m : SMap) (k : String) (v : Nat) :
    (storeOp m k v).2 = ((mapGet m k).getD []).length ∧
    mapGet (storeOp m k v).1 k = some (((mapGet m k).getD []) ++ [v]) := by
  cases h : mapGet m k with
  | none => simp [storeOp, h, mapGet_mapInsert_self]
  | some l => simp [storeOp, h, mapGet_mapInsert_self]

/-- The offsets handed out by a run of sequential Stores on one key continue
the current length of that log: length, length+1, length+2, ... -/
theorem storeAll_offsets (vs : List Nat) (m : SMap) (k : String) :
    (storeAll m k vs).2
      = (List.range vs.length).map
          (fun j => ((mapGet m k).getD []).length + j) := by
  induction vs generalizing m with
  | nil => simp [storeAll]
  | cons v rest ih =>
    have hoff := (storeOp_spec m k v).1
    have hget := (storeOp_spec m k v).2
    have ihs := ih (storeOp m k v).1
    rw [hget] at ihs
    simp only [storeAll, ihs, hoff, Option.getD_some, List.length_append,
      List.length_cons, List.length_nil, List.range_succ_eq_map, List.map_cons,
      List.map_map, Nat.add_zero]
    refine congrArg (List.cons _) ?_
    apply List.map_congr_left
    intro j _
    simp only [Function.comp]
    omega

/-
Concrete fixtures used by counterexamples and witnesses.
-/

/-- A concrete inbound envelope from client c1 to node d with the payload. -/
def envTo (d : String) (mid : Int) (p : Payload) : Message :=
  { src := "c1", dst := d,
    body := { msg_id := some mid, in_reply_to := none, payload := p } }

/-- A concrete node that has completed the init handshake as n1. -/
def nodeN1 : Node :=
  (Node.new.handle_message (envTo "n1" 1 (.Init "n1" ["n1", "n2"]))).1

/-- The node of the C2 trace: init as n1, then the value 5 broadcast twice. -/
def c2_node : Node :=
  (Node.new.handle_all
    [envTo "n1" 1 (.Init "n1" ["n1"]),
     envTo "n1" 2 (.Broadcast 5),
     envTo "n1" 3 (.Broadcast 5)]).1

/-- Initial backend configuration for the racy schedule of claim C4: key k
absent from the store, two Store connections on key k. -/
def c4_start : BackendConfig :=
  { map := [], threads := [.ready "k" 1, .ready "k" 2] }

/-
Claim theorems.
-/

/-- Claim C3: CommitOffsets unconditionally overwrites the commit bookmark of
each named key, independent of the log store, and ListCommittedOffsets then
returns exactly the stored bookmark, even for a key never appended to
(no hypothesis on st constrains st.logs in any way). -/
theorem C3_thm (st : CommitLog) (k : String) (v : Nat) :
    listCommittedOffsets (commitOffsets st [(k, v)]) [k] = [(k, v)] := by
  simp [listCommittedOffsets, commitOffsets, lookup_setCommit]

/-- Claim C4 (code bug): when key k is absent, the Store arm of Storage::run
observes the absence (get_mut returning None) in one step and inserts in a
later step; scheduling two concurrent Store handlers so that both observe the
absence before either inserts makes both return offset 0, and the insert of
the second replaces the log written by the first, so its value is silently
dropped: the claimed distinct ranks 0 and 1 and loss-freedom fail. -/
theorem C4_bug_thm :
    (runSched c4_start [0, 1, 0, 1]).threads = [.done 0, .done 0] ∧
    mapGet (runSched c4_start [0, 1, 0, 1]).map "k" = some [2] :=
  ⟨rfl, rfl⟩

/-- Statement of claim C10 at the given inputs: Store appends to the log of
its key (creating it if absent), returns the length of that log immediately
before the append and touches no other key; successive Stores on a fresh key
return exactly 0,1,2,...; Get returns the values at or after the offset, and
the empty list when the key is absent or the offset is at or past the end. -/
def C10Prop (m : SMap) (k k2 : String) (v off : Nat) (vs : List Nat) : Prop :=
  (storeOp m k v).2 = ((mapGet m k).getD []).length ∧
  mapGet (storeOp m k v).1 k = some (((mapGet m k).getD []) ++ [v]) ∧
  (k2 ≠ k → mapGet (storeOp m k v).1 k2 = mapGet m k2) ∧
  (storeAll [] k vs).2 = List.range vs.length ∧
  getOp m k off = ((mapGet m k).getD []).drop off ∧
  (mapGet m k = none → getOp m k off = []) ∧
  (((mapGet m k).getD []).length ≤ off → getOp m k off = [])

/-- Claim C10: the sequential behaviour of the networked storage backend:
append-with-pre-append-offset, dense offsets 0,1,2,... per key, and
suffix-from-offset reads that are empty past the end or on absent keys. -/
theorem C10_thm (m : SMap) (k k2 : String) (v off : Nat) (vs : List Nat) :
    C10Prop m k k2 v off vs := by
  refine ⟨(storeOp_spec m k v).1, (storeOp_spec m k v).2, ?_, ?_, ?_, ?_, ?_⟩
  · intro h
    cases hg : mapGet m k with
    | none => simp [storeOp, hg, mapGet_mapInsert_other _ _ _ _ h]
    | some l => simp [storeOp, hg, mapGet_mapInsert_other _ _ _ _ h]
  · have hsa := storeAll_offsets vs [] k
    simp only [mapGet, Option.getD_none, List.length_nil, Nat.zero_add] at hsa
    simp [hsa]
  · cases hg : mapGet m k with
    | none => simp [getOp, hg]
    | some l =>
      by_cases hl : l.length > off
      · simp [getOp, hg, hl]
      · have hle : l.length ≤ off := by omega
        simp [getOp, hg, hl, List.drop_eq_nil_of_le hle]
  · intro h
    simp [getOp, h]
  · intro h
    cases hg : mapGet m k with
    | none => simp [getOp, hg]
    | some l =>
      rw [hg] at h
      simp only [Option.getD_some] at h
      simp [getOp, hg, Nat.not_lt.mpr h]

/-- Witness for claim C10 at a concrete store, key and offsets. -/
theorem C10_witness : C10Prop [("a", [10, 20, 30])] "a" "b" 7 1 [4, 5] :=
  C10_thm [("a", [10, 20, 30])] "a" "b" 7 1 [4, 5]

/-- Claim C1 (counterexample): a node still in the Created lifecycle state
answers a generate payload with generate_ok, not with a malformed_request
error reply, so not every non-init payload is rejected before the
handshake. -/
theorem C1_counterexample :
    Node.new.replyPayload (envTo "n1" 1 .Generate) = some (.GenerateOk 0) :=
  rfl

/-- Claim C2 (counterexample): after init and two Broadcast(5), the Read reply
carries the value list [5, 5]: the value 5 appears twice, so duplicate values
are not collapsed. -/
theorem C2_counterexample :
    c2_node.replyPayload (envTo "n1" 4 .Read) = some (.ReadOk [5, 5] 0) ∧
    ¬ (([5, 5] : List Int).count 5 ≤ 1) :=
  ⟨rfl, by decide⟩

/-- Claim C5 (counterexample): an initialized node handling an inbound
error-class payload does produce an outbound reply: a malformed_request error
reply (the IllegalPayloadType conversion), so the error payload is not
terminal. -/
theorem C5_counterexample :
    ((nodeN1.build_reply (envTo "n1" 2 (.Error .Timeout "boom"))).2.2).isSome
      = true ∧
    nodeN1.replyPayload (envTo "n1" 2 (.Error .Timeout "boom"))
      = some (.Error .MalformedRequest NodeError.IllegalPayloadType.debugText) :=
  ⟨rfl, rfl⟩

/-
Projections of the spreadAux lemmas, in simp-friendly form.
-/

theorem spreadAux_state (l : List String) (n : Node) (p : Payload) (i : String) :
    (spreadAux n p i l).1.state = n.state := (spreadAux_fields l n p i).1

theorem spreadAux_id (l : List String) (n : Node) (p : Payload) (i : String) :
    (spreadAux n p i l).1.id = n.id := (spreadAux_fields l n p i).2.1

theorem spreadAux_broadcast_messages (l : List String) (n : Node) (p : Payload)
    (i : String) :
    (spreadAux n p i l).1.broadcast_messages = n.broadcast_messages :=
  (spreadAux_fields l n p i).2.2.2.1

theorem spreadAux_heard_rumors (l : List String) (n : Node) (p : Payload)
    (i : String) :
    (spreadAux n p i l).1.heard_rumors = n.heard_rumors :=
  (spreadAux_fields l n p i).2.2.2.2.1

theorem spreadAux_grow_value (l : List String) (n : Node) (p : Payload)
    (i : String) :
    (spreadAux n p i l).1.grow_value = n.grow_value :=
  (spreadAux_fields l n p i).2.2.2.2.2.1

theorem spreadAux_neighbours (l : List String) (n : Node) (p : Payload)
    (i : String) :
    (spreadAux n p i l).1.neighbours = n.neighbours :=
  (spreadAux_fields l n p i).2.2.2.2.2.2.1

theorem spreadAux_dsts (l : List String) (n : Node) (p : Payload) (i : String)
    (h : n.id = some i) :
    ((spreadAux n p i l).2.map fun m => m.dst) = l := (spreadAux_outs l n p i h).1

theorem spreadAux_srcs (l : List String) (n : Node) (p : Payload) (i : String)
    (h : n.id = some i) :
    ((spreadAux n p i l).2.map fun m => m.src) = l.map (fun _ => i) :=
  (spreadAux_outs l n p i h).2.1

theorem spreadAux_payloads (l : List String) (n : Node) (p : Payload) (i : String)
    (h : n.id = some i) :
    ((spreadAux n p i l).2.map fun m => m.body.payload) = l.map (fun _ => p) :=
  (spreadAux_outs l n p i h).2.2

/-- Statement of the amended claim C5 on node n and envelope msg: an inbound
error-class payload always triggers exactly one malformed_request error reply
(never silence). -/
def C5Prop (n : Node) (msg : Message) : Prop :=
  ∃ t, n.replyPayload msg = some (.Error .MalformedRequest t) ∧
    ((n.handle_message msg).2.map fun m => m.body.payload)
      = [.Error .MalformedRequest t]

/-- Claim C5 (amended): an inbound envelope carrying an error-class payload is
not terminal: in every lifecycle state and for every code and text it is
answered with exactly one malformed_request error reply (IllegalPayloadType
when the addressing matches, NodeIdMismatch when it does not). -/
theorem C5_amended_thm (n : Node) (msg : Message) (c : MaelstromError)
    (s : String) (hp : msg.body.payload = .Error c s) : C5Prop n msg := by
  cases hid : n.id with
  | none =>
    exact ⟨NodeError.IllegalPayloadType.debugText,
      by simp [Node.replyPayload, Node.build_reply, Node.proceed_message,
        Node.dispatchPayload, hid, hp, Node.wrap_err, Node.wrap_payload,
        Node.nextMessageId],
      by simp [Node.handle_message, Node.build_reply, Node.proceed_message,
        Node.dispatchPayload, hid, hp, Node.wrap_err, Node.wrap_payload,
        Node.nextMessageId]⟩
  | some i =>
    by_cases hdst : i = msg.dst
    · exact ⟨NodeError.IllegalPayloadType.debugText,
        by simp [Node.replyPayload, Node.build_reply, Node.proceed_message,
          Node.dispatchPayload, hid, hdst, hp, Node.wrap_err, Node.wrap_payload,
          Node.nextMessageId],
        by simp [Node.handle_message, Node.build_reply, Node.proceed_message,
          Node.dispatchPayload, hid, hdst, hp, Node.wrap_err, Node.wrap_payload,
          Node.nextMessageId]⟩
    · exact ⟨NodeError.NodeIdMismatch.debugText,
        by simp [Node.replyPayload, Node.build_reply, Node.proceed_message,
          Node.dispatchPayload, hid, hdst, hp, Node.wrap_err, Node.wrap_payload,
          Node.nextMessageId],
        by simp [Node.handle_message, Node.build_reply, Node.proceed_message,
          Node.dispatchPayload, hid, hdst, hp, Node.wrap_err, Node.wrap_payload,
          Node.nextMessageId]⟩

/-- Witness for claim C5 (amended) on the concrete initialized node. -/
theorem C5_witness :
    (envTo "n1" 3 (.Error .Crash "oops")).body.payload = .Error .Crash "oops" ∧
    C5Prop nodeN1 (envTo "n1" 3 (.Error .Crash "oops")) :=
  ⟨rfl, C5_amended_thm nodeN1 (envTo "n1" 3 (.Error .Crash "oops")) .Crash
    "oops" rfl⟩

/-- Statement of the amended claim C1: before the handshake only echo and
topology payloads yield malformed_request error replies (code 12); generate,
broadcast, add, read and rumor payloads are processed normally and answered
with their ok replies; a second init on an initialized node yields a
malformed_request error reply. -/
def C1Prop (n m : Node) (msg msg2 : Message) : Prop :=
  MaelstromError.code .MalformedRequest = 12 ∧
  (∀ e, msg.body.payload = .Echo e →
    ∃ t, n.replyPayload msg = some (.Error .MalformedRequest t)) ∧
  (∀ t0, msg.body.payload = .Topology t0 →
    ∃ t, n.replyPayload msg = some (.Error .MalformedRequest t)) ∧
  (msg.body.payload = .Generate →
    n.replyPayload msg = some (.GenerateOk n.uuidSeed)) ∧
  (∀ v, msg.body.payload = .Broadcast v →
    n.replyPayload msg = some .BroadcastOk) ∧
  (∀ d, msg.body.payload = .Add d → n.replyPayload msg = some .AddOk) ∧
  (msg.body.payload = .Read →
    n.replyPayload msg = some (.ReadOk n.broadcast_messages n.grow_value)) ∧
  (∀ i d, msg.body.payload = .Rumor i d → n.replyPayload msg = some .RumorOk) ∧
  (∀ nid nids, msg2.body.payload = .Init nid nids →
    ∃ t, m.replyPayload msg2 = some (.Error .MalformedRequest t))

/-- Claim C1 (amended): the lifecycle gate only covers echo and topology (and
a repeated init); the other payload variants are not rejected before the
handshake. -/
theorem C1_amended_thm (n m : Node) (msg msg2 : Message)
    (hs : n.state = .Created) (hid : n.id = none)
    (hs2 : m.state = .Initialized) : C1Prop n m msg msg2 := by
  refine ⟨rfl, ?_, ?_, ?_, ?_, ?_, ?_, ?_, ?_⟩
  · intro e hp
    exact ⟨(NodeError.UnacceptablePayloadType "Echo" .Created).debugText,
      by simp [Node.replyPayload, Node.build_reply, Node.proceed_message,
        Node.dispatchPayload, hid, hs, hp, Node.wrap_err, Node.wrap_payload,
        Node.nextMessageId]⟩
  · intro t0 hp
    exact ⟨(NodeError.UnacceptablePayloadType "Topology" .Created).debugText,
      by simp [Node.replyPayload, Node.build_reply, Node.proceed_message,
        Node.dispatchPayload, hid, hs, hp, Node.wrap_err, Node.wrap_payload,
        Node.nextMessageId]⟩
  · intro hp
    simp [Node.replyPayload, Node.build_reply, Node.proceed_message,
      Node.dispatchPayload, hid, hp, Node.newUuid, Node.wrap_payload,
      Node.nextMessageId]
  · intro v hp
    simp [Node.replyPayload, Node.build_reply, Node.proceed_message,
      Node.dispatchPayload, hid, hp, Node.newUuid, Node.spread,
      Node.wrap_payload, Node.nextMessageId]
  · intro d hp
    simp [Node.replyPayload, Node.build_reply, Node.proceed_message,
      Node.dispatchPayload, hid, hp, Node.wrap_payload, Node.nextMessageId]
  · intro hp
    simp [Node.replyPayload, Node.build_reply, Node.proceed_message,
      Node.dispatchPayload, hid, hp, Node.wrap_payload, Node.nextMessageId]
  · intro i d hp
    by_cases hm : i ∈ n.heard_rumors
    · simp [Node.replyPayload, Node.build_reply, Node.proceed_message,
        Node.dispatchPayload, hid, hp, hm, Node.wrap_payload, Node.nextMessageId]
    · simp [Node.replyPayload, Node.build_reply, Node.proceed_message,
        Node.dispatchPayload, hid, hp, hm, Node.spread, Node.wrap_payload,
        Node.nextMessageId]
  · intro nid nids hp
    cases hmid : m.id with
    | none =>
      exact ⟨(NodeError.UnacceptablePayloadType "Init" .Initialized).debugText,
        by simp [Node.replyPayload, Node.build_reply,
          Node.proceed_message, Node.dispatchPayload, hmid, hs2, hp,
          Node.wrap_err, Node.wrap_payload, Node.nextMessageId]⟩
    | some i =>
      by_cases hdst : i = msg2.dst
      · exact ⟨(NodeError.UnacceptablePayloadType "Init" .Initialized).debugText,
          by simp [Node.replyPayload, Node.build_reply,
            Node.proceed_message, Node.dispatchPayload, hmid, hdst, hs2, hp,
            Node.wrap_err, Node.wrap_payload, Node.nextMessageId]⟩
      · exact ⟨NodeError.NodeIdMismatch.debugText,
          by simp [Node.replyPayload, Node.build_reply,
            Node.proceed_message, Node.dispatchPayload, hmid, hdst, hs2, hp,
            Node.wrap_err, Node.wrap_payload, Node.nextMessageId]⟩

/-- Witness for claim C1 (amended): the fresh node and a concrete initialized
node, on a generate envelope and a second init envelope. -/
theorem C1_witness :
    Node.new.state = .Created ∧ Node.new.id = none ∧
    nodeN1.state = .Initialized ∧
    C1Prop Node.new nodeN1 (envTo "n1" 1 .Generate)
      (envTo "n1" 2 (.Init "n9" ["n9"])) :=
  ⟨rfl, rfl, rfl,
   C1_amended_thm Node.new nodeN1 (envTo "n1" 1 .Generate)
     (envTo "n1" 2 (.Init "n9" ["n9"])) rfl rfl rfl⟩

/-- Statement of the amended claim C2: the broadcast knowledge store is a
plain list that deduplicates only by rumor id, never by value: a handled
Broadcast appends its value unconditionally and replies broadcast_ok, a
Rumor with an unseen id appends its value and records the id, a Rumor with a
seen id leaves the list and the seen-id set unchanged, and Read returns the
stored list verbatim. -/
def C2Prop (n : Node) (msgB msgR msgU : Message) (v : Int) (rid : Nat)
    (d : Int) : Prop :=
  (n.handle_message msgB).1.broadcast_messages = n.broadcast_messages ++ [v] ∧
  n.replyPayload msgB = some .BroadcastOk ∧
  (rid ∉ n.heard_rumors →
    (n.handle_message msgU).1.broadcast_messages
      = n.broadcast_messages ++ [d] ∧
    (n.handle_message msgU).1.heard_rumors = n.heard_rumors ++ [rid]) ∧
  (rid ∈ n.heard_rumors →
    (n.handle_message msgU).1.broadcast_messages = n.broadcast_messages ∧
    (n.handle_message msgU).1.heard_rumors = n.heard_rumors) ∧
  n.replyPayload msgR = some (.ReadOk n.broadcast_messages n.grow_value)

/-- Claim C2 (amended): duplicates are collapsed only by rumor id, never by
value: every handled Broadcast appends its value to the knowledge list, every
Rumor with an unseen id appends its value (a seen id changes nothing), and
Read returns that list verbatim, so a twice-broadcast value appears twice. -/
theorem C2_amended_thm (n : Node) (msgB msgR msgU : Message) (v : Int)
    (rid : Nat) (d : Int)
    (hB : msgB.body.payload = .Broadcast v)
    (hokB : n.id = none ∨ n.id = some msgB.dst)
    (hU : msgU.body.payload = .Rumor rid d)
    (hokU : n.id = none ∨ n.id = some msgU.dst)
    (hR : msgR.body.payload = .Read)
    (hokR : n.id = none ∨ n.id = some msgR.dst) :
    C2Prop n msgB msgR msgU v rid d := by
  refine ⟨?_, ?_, ?_, ?_, ?_⟩
  · cases hokB with
    | inl hid =>
      simp [Node.handle_message, Node.build_reply, Node.proceed_message,
        Node.dispatchPayload, hid, hB, Node.newUuid, Node.spread,
        Node.wrap_payload, Node.nextMessageId]
    | inr hid =>
      simp [Node.handle_message, Node.build_reply, Node.proceed_message,
        Node.dispatchPayload, hid, hB, Node.newUuid, Node.spread,
        spreadAux_broadcast_messages, Node.wrap_payload, Node.nextMessageId]
  · cases hokB with
    | inl hid =>
      simp [Node.replyPayload, Node.build_reply, Node.proceed_message,
        Node.dispatchPayload, hid, hB, Node.newUuid, Node.spread,
        Node.wrap_payload, Node.nextMessageId]
    | inr hid =>
      simp [Node.replyPayload, Node.build_reply, Node.proceed_message,
        Node.dispatchPayload, hid, hB, Node.newUuid, Node.spread,
        spreadAux_id, Node.wrap_payload, Node.nextMessageId]
  · intro hm
    cases hokU with
    | inl hid =>
      constructor <;>
        simp [Node.handle_message, Node.build_reply, Node.proceed_message,
          Node.dispatchPayload, hid, hU, hm, Node.spread, Node.wrap_payload,
          Node.nextMessageId]
    | inr hid =>
      constructor <;>
        simp [Node.handle_message, Node.build_reply, Node.proceed_message,
          Node.dispatchPayload, hid, hU, hm, Node.spread,
          spreadAux_broadcast_messages, spreadAux_heard_rumors,
          Node.wrap_payload, Node.nextMessageId]
  · intro hm
    cases hokU with
    | inl hid =>
      constructor <;>
        simp [Node.handle_message, Node.build_reply, Node.proceed_message,
          Node.dispatchPayload, hid, hU, hm, Node.wrap_payload,
          Node.nextMessageId]
    | inr hid =>
      constructor <;>
        simp [Node.handle_message, Node.build_reply, Node.proceed_message,
          Node.dispatchPayload, hid, hU, hm, Node.wrap_payload,
          Node.nextMessageId]
  · cases hokR with
    | inl hid =>
      simp [Node.replyPayload, Node.build_reply, Node.proceed_message,
        Node.dispatchPayload, hid, hR, Node.wrap_payload, Node.nextMessageId]
    | inr hid =>
      simp [Node.replyPayload, Node.build_reply, Node.proceed_message,
        Node.dispatchPayload, hid, hR, Node.wrap_payload, Node.nextMessageId]

/-- Witness for claim C2 (amended) on the concrete initialized node. -/
theorem C2_witness :
    (envTo "n1" 2 (.Broadcast 5)).body.payload = .Broadcast 5 ∧
    (nodeN1.id = none ∨ nodeN1.id = some (envTo "n1" 2 (.Broadcast 5)).dst) ∧
    (envTo "n1" 5 (.Rumor 3 7)).body.payload = .Rumor 3 7 ∧
    (nodeN1.id = none ∨ nodeN1.id = some (envTo "n1" 5 (.Rumor 3 7)).dst) ∧
    (envTo "n1" 4 .Read).body.payload = .Read ∧
    (nodeN1.id = none ∨ nodeN1.id = some (envTo "n1" 4 .Read).dst) ∧
    C2Prop nodeN1 (envTo "n1" 2 (.Broadcast 5)) (envTo "n1" 4 .Read)
      (envTo "n1" 5 (.Rumor 3 7)) 5 3 7 :=
  ⟨rfl, Or.inr rfl, rfl, Or.inr rfl, rfl, Or.inr rfl,
   C2_amended_thm nodeN1 (envTo "n1" 2 (.Broadcast 5)) (envTo "n1" 4 .Read)
     (envTo "n1" 5 (.Rumor 3 7)) 5 3 7
     rfl (Or.inr rfl) rfl (Or.inr rfl) rfl (Or.inr rfl)⟩

/-- On an initialized node, dispatching any payload preserves the node id and
the Initialized state: the Init arm rejects, no other arm writes them. -/
theorem dispatchPayload_initialized (n : Node) (msg : Message)
    (hs : n.state = .Initialized) :
    (n.dispatchPayload msg).1.id = n.id ∧
    (n.dispatchPayload msg).1.state = .Initialized := by
  rcases msg with ⟨msrc, mdst, ⟨mid, irt, pl⟩⟩
  cases pl
  case Init nid nids => simp [Node.dispatchPayload, hs]
  case Echo e => simp [Node.dispatchPayload, hs]
  case Generate => simp [Node.dispatchPayload, hs, Node.newUuid]
  case Broadcast v =>
    cases hid : n.id with
    | none => simp [Node.dispatchPayload, hs, hid, Node.newUuid, Node.spread]
    | some j =>
      simp [Node.dispatchPayload, hs, hid, Node.newUuid, Node.spread,
        spreadAux_id, spreadAux_state]
  case Add d => simp [Node.dispatchPayload, hs]
  case Read => simp [Node.dispatchPayload, hs]
  case Topology t =>
    cases hid : n.id with
    | none => simp [Node.dispatchPayload, hs, hid]
    | some j =>
      cases t
      case obj fields =>
        cases hl : fields.lookup j with
        | none => simp [Node.dispatchPayload, hs, hid, hl]
        | some v =>
          cases ha : asStringList v with
          | none => simp [Node.dispatchPayload, hs, hid, hl, ha]
          | some top => simp [Node.dispatchPayload, hs, hid, hl, ha]
      all_goals simp [Node.dispatchPayload, hs, hid]
  case Rumor i d =>
    by_cases hm : i ∈ n.heard_rumors
    · simp [Node.dispatchPayload, hs, hm]
    · cases hid : n.id with
      | none => simp [Node.dispatchPayload, hs, hm, hid, Node.spread]
      | some j =>
        simp [Node.dispatchPayload, hs, hm, hid, Node.spread, spreadAux_id,
          spreadAux_state]
  case Error c s => simp [Node.dispatchPayload, hs]
  case EchoOk e => simp [Node.dispatchPayload, hs]
  case InitOk => simp [Node.dispatchPayload, hs]
  case BroadcastOk => simp [Node.dispatchPayload, hs]
  case ReadOk l v => simp [Node.dispatchPayload, hs]
  case TopologyOk => simp [Node.dispatchPayload, hs]
  case AddOk => simp [Node.dispatchPayload, hs]
  case RumorOk => simp [Node.dispatchPayload, hs]
  case GenerateOk u => simp [Node.dispatchPayload, hs]

/-- On an initialized node, proceed_message preserves the node id. -/
theorem proceed_message_id (n : Node) (msg : Message) (i : String)
    (hs : n.state = .Initialized) (hid : n.id = some i) :
    (n.proceed_message msg).1.id = some i := by
  have hd := (dispatchPayload_initialized n msg hs).1
  unfold Node.proceed_message
  rw [hid]
  by_cases hdst : i ≠ msg.dst
  · simp [hdst, hid]
  · simp [hdst, hd, hid]

/-- Claim C8: every reply (success or error) of an initialized node carries
the own node id as src (whatever dst the inbound envelope used), the inbound
src as dst, and the inbound msg_id as in_reply_to. -/
theorem C8_thm (n : Node) (msg : Message) (i : String) (reply : Message)
    (hs : n.state = .Initialized) (hid : n.id = some i)
    (hr : (n.build_reply msg).2.2 = some reply) :
    reply.src = i ∧ reply.dst = msg.src ∧
    reply.body.in_reply_to = msg.body.msg_id := by
  have hpid := proceed_message_id n msg i hs hid
  unfold Node.build_reply at hr
  cases he : (n.proceed_message msg).2.2 with
  | error e =>
    cases e
    case DontReply =>
      simp only [he] at hr
      simp at hr
    all_goals
      simp only [he, Node.wrap_payload, Node.nextMessageId, hpid] at hr
      obtain rfl := Option.some.inj hr
      exact ⟨rfl, rfl, rfl⟩
  | ok p =>
    simp only [he, Node.wrap_payload, Node.nextMessageId, hpid] at hr
    obtain rfl := Option.some.inj hr
    exact ⟨rfl, rfl, rfl⟩

/-- Witness for claim C8 on the concrete initialized node and an echo
envelope whose dst disagrees with the node id. -/
theorem C8_witness :
    nodeN1.state = .Initialized ∧ nodeN1.id = some "n1" ∧
    (nodeN1.build_reply (envTo "zz" 7 (.Echo "hi"))).2.2
      = some ((nodeN1.build_reply (envTo "zz" 7 (.Echo "hi"))).2.2.getD
          (envTo "zz" 7 (.Echo "hi"))) ∧
    ((nodeN1.build_reply (envTo "zz" 7 (.Echo "hi"))).2.2.getD
        (envTo "zz" 7 (.Echo "hi"))).src = "n1" ∧
    ((nodeN1.build_reply (envTo "zz" 7 (.Echo "hi"))).2.2.getD
        (envTo "zz" 7 (.Echo "hi"))).dst = (envTo "zz" 7 (.Echo "hi")).src ∧
    ((nodeN1.build_reply (envTo "zz" 7 (.Echo "hi"))).2.2.getD
        (envTo "zz" 7 (.Echo "hi"))).body.in_reply_to
      = (envTo "zz" 7 (.Echo "hi")).body.msg_id := by
  refine ⟨rfl, rfl, rfl, ?_⟩
  exact C8_thm nodeN1 (envTo "zz" 7 (.Echo "hi")) "n1"
    ((nodeN1.build_reply (envTo "zz" 7 (.Echo "hi"))).2.2.getD
      (envTo "zz" 7 (.Echo "hi"))) rfl rfl rfl

/-- The (dst, payload) pairs of the messages spreadAux emits: one per listed
neighbour, in order, all carrying the spread payload. -/
theorem spreadAux_dst_payloads (l : List String) (n : Node) (p : Payload)
    (i : String) :
    ((spreadAux n p i l).2.map fun m => (m.dst, m.body.payload))
      = l.map (fun nb => (nb, p)) := by
  induction l generalizing n with
  | nil => simp [spreadAux]
  | cons nb rest ih =>
    simpa [spreadAux, Node.wrap_payload, Node.nextMessageId] using
      ih { n with next_message_id := wrap32 (n.next_message_id + 1) }

/-- Statement of claim C6 on node n handling the rumor envelope msg: a fresh
rumor id adds the value to the knowledge list, records the id, and forwards
the same rumor to every current neighbour; a seen id changes nothing and
forwards nothing; either way exactly one rumor_ok reply goes back to the
sender. -/
def C6Prop (n : Node) (msg : Message) (rid : Nat) (dat : Int) : Prop :=
  (rid ∉ n.heard_rumors →
    (n.handle_message msg).1.broadcast_messages = n.broadcast_messages ++ [dat] ∧
    (n.handle_message msg).1.heard_rumors = n.heard_rumors ++ [rid] ∧
    (n.handle_message msg).1.neighbours = n.neighbours ∧
    ((n.handle_message msg).2.map fun m => (m.dst, m.body.payload))
      = n.neighbours.map (fun nb => (nb, Payload.Rumor rid dat))
        ++ [(msg.src, Payload.RumorOk)]) ∧
  (rid ∈ n.heard_rumors →
    (n.handle_message msg).1.broadcast_messages = n.broadcast_messages ∧
    (n.handle_message msg).1.heard_rumors = n.heard_rumors ∧
    (n.handle_message msg).1.neighbours = n.neighbours ∧
    ((n.handle_message msg).2.map fun m => (m.dst, m.body.payload))
      = [(msg.src, Payload.RumorOk)])

/-- Claim C6: rumor handling on an initialized node deduplicates by rumor id,
floods fresh rumors to every neighbour, and always acknowledges once. -/
theorem C6_thm (n : Node) (msg : Message) (rid : Nat) (dat : Int) (i : String)
    (hp : msg.body.payload = .Rumor rid dat)
    (_hs : n.state = .Initialized) (hid : n.id = some i)
    (hdst : msg.dst = i) : C6Prop n msg rid dat := by
  constructor
  · intro hm
    simp [Node.handle_message, Node.build_reply, Node.proceed_message,
      Node.dispatchPayload, hid, hdst, hp, hm, Node.spread,
      spreadAux_broadcast_messages, spreadAux_heard_rumors,
      spreadAux_neighbours, spreadAux_dst_payloads, Node.wrap_payload,
      Node.nextMessageId]
  · intro hm
    simp [Node.handle_message, Node.build_reply, Node.proceed_message,
      Node.dispatchPayload, hid, hdst, hp, hm, Node.wrap_payload,
      Node.nextMessageId]

/-- A concrete initialized node with neighbours and one seen rumor id. -/
def c6_node : Node :=
  { state := .Initialized, next_message_id := 0, id := some "n1",
    all_node_ids := ["n1", "n2", "n3"], broadcast_messages := [1],
    heard_rumors := [4], grow_value := 0, neighbours := ["n2", "n3"],
    uuidSeed := 5 }

/-- Witness for claim C6 on a concrete node with two neighbours. -/
theorem C6_witness :
    (envTo "n1" 6 (.Rumor 9 42)).body.payload = .Rumor 9 42 ∧
    c6_node.state = .Initialized ∧ c6_node.id = some "n1" ∧
    (envTo "n1" 6 (.Rumor 9 42)).dst = "n1" ∧
    C6Prop c6_node (envTo "n1" 6 (.Rumor 9 42)) 9 42 :=
  ⟨rfl, rfl, rfl, rfl,
   C6_thm c6_node (envTo "n1" 6 (.Rumor 9 42)) 9 42 "n1" rfl rfl rfl rfl⟩

/-- The neighbour list the Topology arm extracts for own id i: the mapping
must be an object, hold an entry for i, and that entry must deserialize as a
list of strings (the three guarded steps of src/main.rs lines 239-249). -/
def topologyEntry (t : JsonValue) (i : String) : Option (List String) :=
  match t with
  | .obj fields =>
    match fields.lookup i with
    | none => none
    | some v => asStringList v
  | _ => none

/-- The Topology arm of dispatchPayload, characterized through topologyEntry:
success replaces the neighbour list, any guard failure is IllegalPayload and
leaves the node untouched. -/
theorem dispatch_topology (n : Node) (msg : Message) (i : String) (t : JsonValue)
    (hid : n.id = some i) (hp : msg.body.payload = .Topology t) :
    n.dispatchPayload msg
      = match topologyEntry t i with
        | some top => ({ n with neighbours := top }, [], .ok .TopologyOk)
        | none => (n, [], .error .IllegalPayload) := by
  cases t with
  | obj fields =>
    cases hl : fields.lookup i with
    | none => simp [Node.dispatchPayload, topologyEntry, hp, hid, hl]
    | some v =>
      cases ha : asStringList v with
      | none => simp [Node.dispatchPayload, topologyEntry, hp, hid, hl, ha]
      | some top => simp [Node.dispatchPayload, topologyEntry, hp, hid, hl, ha]
  | null => simp [Node.dispatchPayload, topologyEntry, hp, hid]
  | bool b => simp [Node.dispatchPayload, topologyEntry, hp, hid]
  | num x => simp [Node.dispatchPayload, topologyEntry, hp, hid]
  | str s => simp [Node.dispatchPayload, topologyEntry, hp, hid]
  | arr xs => simp [Node.dispatchPayload, topologyEntry, hp, hid]

/-- One handling step of a topology envelope on an initialized node, with the
preservation facts needed to run it a second time. -/
theorem topology_step (n : Node) (msg : Message) (i : String) (t : JsonValue)
    (hs : n.state = .Initialized) (hid : n.id = some i) (hdst : msg.dst = i)
    (hp : msg.body.payload = .Topology t) :
    (∀ top, topologyEntry t i = some top →
      (n.handle_message msg).1.neighbours = top ∧
      n.replyPayload msg = some .TopologyOk) ∧
    (topologyEntry t i = none →
      (n.handle_message msg).1.neighbours = n.neighbours ∧
      n.replyPayload msg
        = some (.Error .MalformedRequest NodeError.IllegalPayload.debugText)) ∧
    (n.handle_message msg).1.state = .Initialized ∧
    (n.handle_message msg).1.id = some i := by
  have hd := dispatch_topology n msg i t hid hp
  cases hte : topologyEntry t i with
  | some top =>
    rw [hte] at hd
    refine ⟨?_, ?_, ?_, ?_⟩
    · intro top2 htop2
      obtain rfl := Option.some.inj htop2
      constructor <;>
        simp [Node.handle_message, Node.replyPayload, Node.build_reply,
          Node.proceed_message, hid, hdst, hd, Node.wrap_payload,
          Node.nextMessageId]
    · intro hnone
      exact absurd hnone (by simp)
    · simp [Node.handle_message, Node.build_reply, Node.proceed_message, hid,
        hdst, hd, Node.wrap_payload, Node.nextMessageId, hs]
    · simp [Node.handle_message, Node.build_reply, Node.proceed_message, hid,
        hdst, hd, Node.wrap_payload, Node.nextMessageId]
  | none =>
    rw [hte] at hd
    refine ⟨?_, ?_, ?_, ?_⟩
    · intro top2 htop2
      exact absurd htop2 (by simp)
    · intro _
      constructor <;>
        simp [Node.handle_message, Node.replyPayload, Node.build_reply,
          Node.proceed_message, hid, hdst, hd, Node.wrap_err,
          Node.wrap_payload, Node.nextMessageId]
    · simp [Node.handle_message, Node.build_reply, Node.proceed_message, hid,
        hdst, hd, Node.wrap_err, Node.wrap_payload, Node.nextMessageId, hs]
    · simp [Node.handle_message, Node.build_reply, Node.proceed_message, hid,
        hdst, hd, Node.wrap_err, Node.wrap_payload, Node.nextMessageId]

/-- Statement of claim C9 on node n handling the topology envelope msg twice:
success installs exactly the entry for the own id and answers topology_ok both
times with the same neighbour list; a malformed mapping leaves the neighbour
list unchanged and answers malformed_request both times. -/
def C9Prop (n : Node) (msg : Message) (i : String) (t : JsonValue) : Prop :=
  (∀ top, topologyEntry t i = some top →
    (n.handle_message msg).1.neighbours = top ∧
    n.replyPayload msg = some .TopologyOk ∧
    ((n.handle_message msg).1.handle_message msg).1.neighbours = top ∧
    (n.handle_message msg).1.replyPayload msg = some .TopologyOk) ∧
  (topologyEntry t i = none →
    (n.handle_message msg).1.neighbours = n.neighbours ∧
    n.replyPayload msg
      = some (.Error .MalformedRequest NodeError.IllegalPayload.debugText) ∧
    ((n.handle_message msg).1.handle_message msg).1.neighbours = n.neighbours ∧
    (n.handle_message msg).1.replyPayload msg
      = some (.Error .MalformedRequest NodeError.IllegalPayload.debugText))

/-- Claim C9: topology handling installs exactly the own-id entry and replies
topology_ok; malformed mappings give a malformed_request error and change
nothing; handling the same topology envelope twice is idempotent. -/
theorem C9_thm (n : Node) (msg : Message) (i : String) (t : JsonValue)
    (hs : n.state = .Initialized) (hid : n.id = some i) (hdst : msg.dst = i)
    (hp : msg.body.payload = .Topology t) : C9Prop n msg i t := by
  obtain ⟨h1, h2, hstate, hid2⟩ := topology_step n msg i t hs hid hdst hp
  obtain ⟨g1, g2, -, -⟩ :=
    topology_step (n.handle_message msg).1 msg i t hstate hid2 hdst hp
  refine ⟨?_, ?_⟩
  · intro top ht
    exact ⟨(h1 top ht).1, (h1 top ht).2, (g1 top ht).1, (g1 top ht).2⟩
  · intro ht
    exact ⟨(h2 ht).1, (h2 ht).2, ((g2 ht).1).trans (h2 ht).1, (g2 ht).2⟩

/-- The topology envelope of the C9 witness. -/
def c9_msg : Message := envTo "n1" 5 (.Topology (.obj [("n1", .arr [.str "n2"])]))

/-- Witness for claim C9 on the concrete initialized node and a well-formed
topology mapping. -/
theorem C9_witness :
    nodeN1.state = .Initialized ∧ nodeN1.id = some "n1" ∧
    c9_msg.dst = "n1" ∧
    c9_msg.body.payload = .Topology (.obj [("n1", .arr [.str "n2"])]) ∧
    C9Prop nodeN1 c9_msg "n1" (.obj [("n1", .arr [.str "n2"])]) :=
  ⟨rfl, rfl, rfl, rfl,
   C9_thm nodeN1 c9_msg "n1" (.obj [("n1", .arr [.str "n2"])]) rfl rfl rfl rfl⟩

/-
The reply message-id counter, claim C7. incId is one pass of the
Node.next_message_id method on the stored counter value; afterIds and idRun
describe the counter and the assigned ids after k assignments.
-/

/-- One increment of the wrapping i32 reply counter. -/
def incId (c : Int) : Int := wrap32 (c + 1)

/-- The counter value after k id assignments starting from counter c. -/
def afterIds (c : Int) : Nat → Int
  | 0 => c
  | k + 1 => afterIds (incId c) k

/-- The ids assigned by k successive assignments starting from counter c. -/
def idRun (c : Int) : Nat → List Int
  | 0 => []
  | k + 1 => incId c :: idRun (incId c) k

/-- The msg_id fields of a list of outgoing envelopes, in write order. -/
def outIds (outs : List Message) : List Int :=
  outs.filterMap (fun m => m.body.msg_id)

theorem afterIds_incId_comm (k : Nat) (c : Int) :
    afterIds (incId c) k = incId (afterIds c k) := by
  induction k generalizing c with
  | zero => rfl
  | succ k ih =>
    show afterIds (incId (incId c)) k = incId (afterIds (incId c) k)
    exact ih (incId c)

theorem afterIds_succ (c : Int) (k : Nat) :
    afterIds c (k + 1) = incId (afterIds c k) := afterIds_incId_comm k c

theorem afterIds_add (a b : Nat) (c : Int) :
    afterIds c (a + b) = afterIds (afterIds c a) b := by
  induction a generalizing c with
  | zero =>
    rw [Nat.zero_add]
    rfl
  | succ a ih =>
    rw [Nat.succ_add]
    show afterIds (incId c) (a + b) = afterIds (afterIds (incId c) a) b
    exact ih (incId c)

theorem idRun_append (a b : Nat) (c : Int) :
    idRun c (a + b) = idRun c a ++ idRun (afterIds c a) b := by
  induction a generalizing c with
  | zero =>
    rw [Nat.zero_add]
    rfl
  | succ a ih =>
    rw [Nat.succ_add]
    show incId c :: idRun (incId c) (a + b)
      = (incId c :: idRun (incId c) a) ++ idRun (afterIds (incId c) a) b
    rw [List.cons_append, ih (incId c)]

theorem idRun_length (k : Nat) (c : Int) : (idRun c k).length = k := by
  induction k generalizing c with
  | zero => rfl
  | succ k ih => simp [idRun, ih]

/-- Closed form of idRun: the j-th assigned id is the counter after j+1
assignments. -/
theorem idRun_closed (k : Nat) (c : Int) :
    idRun c k = (List.range k).map (fun j => afterIds c (j + 1)) := by
  induction k generalizing c with
  | zero => rfl
  | succ k ih =>
    show incId c :: idRun (incId c) k = _
    rw [ih (incId c), List.range_succ_eq_map]
    simp only [List.map_cons, List.map_map]
    rfl

/-- wrap32 is the identity on the i32 range. -/
theorem wrap32_eq_self (x : Int) (h1 : -(2 ^ 31) ≤ x) (h2 : x < 2 ^ 31) :
    wrap32 x = x := by
  unfold wrap32
  have ha : (0 : Int) ≤ x + 2 ^ 31 := by omega
  have hb : x + 2 ^ 31 < 2 ^ 32 := by omega
  rw [Int.emod_eq_of_lt ha hb]
  omega

/-- While the counter stays inside the i32 range, assignments just add one. -/
theorem afterIds_closed (k : Nat) (c : Int)
    (h1 : -(2 ^ 31) ≤ c) (h2 : c + k ≤ 2 ^ 31 - 1) :
    afterIds c k = c + k := by
  induction k generalizing c with
  | zero => simp [afterIds]
  | succ k ih =>
    have hk : (0 : Int) ≤ (k : Int) := Int.natCast_nonneg k
    have hcast : ((k + 1 : Nat) : Int) = (k : Int) + 1 := by push_cast; ring
    rw [hcast] at h2
    have hc : incId c = c + 1 := by
      unfold incId
      apply wrap32_eq_self <;> omega
    show afterIds (incId c) k = c + (k + 1 : Nat)
    rw [hc, ih (c + 1) (by omega) (by omega), hcast]
    ring

/-- outIds distributes over append. -/
theorem outIds_append (a b : List Message) :
    outIds (a ++ b) = outIds a ++ outIds b := by
  simp [outIds]

/-- The ids spreadAux assigns are the next l.length counter values, and the
counter ends at the counter after l.length assignments. -/
theorem spreadAux_ids (l : List String) (n : Node) (p : Payload) (i : String) :
    outIds (spreadAux n p i l).2 = idRun n.next_message_id l.length ∧
    (spreadAux n p i l).1.next_message_id
      = afterIds n.next_message_id l.length := by
  induction l generalizing n with
  | nil => exact ⟨rfl, rfl⟩
  | cons nb rest ih =>
    have hrec := ih { n with next_message_id := wrap32 (n.next_message_id + 1) }
    constructor
    · show outIds (_ :: (spreadAux _ p i rest).2) = _
      simp only [outIds, List.filterMap_cons] at hrec ⊢
      simp only [Node.wrap_payload, Node.nextMessageId]
      rw [hrec.1]
      rfl
    · show (spreadAux _ p i rest).1.next_message_id = _
      simp only [Node.wrap_payload, Node.nextMessageId]
      rw [hrec.2]
      rfl

theorem spreadAux_outIds (l : List String) (n : Node) (p : Payload) (i : String) :
    outIds (spreadAux n p i l).2 = idRun n.next_message_id l.length :=
  (spreadAux_ids l n p i).1

theorem spreadAux_counter (l : List String) (n : Node) (p : Payload) (i : String) :
    (spreadAux n p i l).1.next_message_id
      = afterIds n.next_message_id l.length := (spreadAux_ids l n p i).2

/-- Dispatching any payload assigns some number k of ids: the messages sent
carry the next k counter values in order and the counter advances to the
counter after k assignments. -/
theorem dispatchPayload_ids (n : Node) (msg : Message) :
    ∃ k, outIds (n.dispatchPayload msg).2.1 = idRun n.next_message_id k ∧
      (n.dispatchPayload msg).1.next_message_id
        = afterIds n.next_message_id k := by
  rcases msg with ⟨msrc, mdst, ⟨mid, irt, pl⟩⟩
  cases pl
  case Init nid nids =>
    refine ⟨0, ?_, ?_⟩ <;>
      by_cases h : n.state = .Created <;>
        simp [Node.dispatchPayload, h, outIds, idRun, afterIds]
  case Echo e =>
    refine ⟨0, ?_, ?_⟩ <;>
      by_cases h : n.state = .Initialized <;>
        simp [Node.dispatchPayload, h, outIds, idRun, afterIds]
  case Generate =>
    exact ⟨0, by simp [Node.dispatchPayload, Node.newUuid, outIds, idRun],
      by simp [Node.dispatchPayload, Node.newUuid, afterIds]⟩
  case Broadcast v =>
    cases hid : n.id with
    | none =>
      refine ⟨0, ?_, ?_⟩ <;>
        simp [Node.dispatchPayload, Node.newUuid, Node.spread, hid, outIds,
          idRun, afterIds]
    | some j =>
      refine ⟨n.neighbours.length, ?_, ?_⟩ <;>
        simp [Node.dispatchPayload, Node.newUuid, Node.spread, hid,
          spreadAux_outIds, spreadAux_counter]
  case Add d =>
    refine ⟨0, ?_, ?_⟩ <;> simp [Node.dispatchPayload, outIds, idRun, afterIds]
  case Read =>
    refine ⟨0, ?_, ?_⟩ <;> simp [Node.dispatchPayload, outIds, idRun, afterIds]
  case Topology t =>
    refine ⟨0, ?_, ?_⟩ <;>
      cases hid : n.id with
      | none => simp [Node.dispatchPayload, hid, outIds, idRun, afterIds]
      | some j =>
        cases t with
        | obj fields =>
          cases hl : fields.lookup j with
          | none => simp [Node.dispatchPayload, hid, hl, outIds, idRun, afterIds]
          | some v =>
            cases ha : asStringList v <;>
              simp [Node.dispatchPayload, hid, hl, ha, outIds, idRun, afterIds]
        | null => simp [Node.dispatchPayload, hid, outIds, idRun, afterIds]
        | bool b => simp [Node.dispatchPayload, hid, outIds, idRun, afterIds]
        | num x => simp [Node.dispatchPayload, hid, outIds, idRun, afterIds]
        | str s => simp [Node.dispatchPayload, hid, outIds, idRun, afterIds]
        | arr xs => simp [Node.dispatchPayload, hid, outIds, idRun, afterIds]
  case Rumor i d =>
    by_cases hm : i ∈ n.heard_rumors
    · refine ⟨0, ?_, ?_⟩ <;>
        simp [Node.dispatchPayload, hm, outIds, idRun, afterIds]
    · cases hid : n.id with
      | none =>
        refine ⟨0, ?_, ?_⟩ <;>
          simp [Node.dispatchPayload, hm, hid, Node.spread, outIds, idRun,
            afterIds]
      | some j =>
        refine ⟨n.neighbours.length, ?_, ?_⟩ <;>
          simp [Node.dispatchPayload, hm, hid, Node.spread, spreadAux_outIds,
            spreadAux_counter]
  case Error c s =>
    refine ⟨0, ?_, ?_⟩ <;> simp [Node.dispatchPayload, outIds, idRun, afterIds]
  case EchoOk e =>
    refine ⟨0, ?_, ?_⟩ <;> simp [Node.dispatchPayload, outIds, idRun, afterIds]
  case InitOk =>
    refine ⟨0, ?_, ?_⟩ <;> simp [Node.dispatchPayload, outIds, idRun, afterIds]
  case BroadcastOk =>
    refine ⟨0, ?_, ?_⟩ <;> simp [Node.dispatchPayload, outIds, idRun, afterIds]
  case ReadOk l v =>
    refine ⟨0, ?_, ?_⟩ <;> simp [Node.dispatchPayload, outIds, idRun, afterIds]
  case TopologyOk =>
    refine ⟨0, ?_, ?_⟩ <;> simp [Node.dispatchPayload, outIds, idRun, afterIds]
  case AddOk =>
    refine ⟨0, ?_, ?_⟩ <;> simp [Node.dispatchPayload, outIds, idRun, afterIds]
  case RumorOk =>
    refine ⟨0, ?_, ?_⟩ <;> simp [Node.dispatchPayload, outIds, idRun, afterIds]
  case GenerateOk u =>
    refine ⟨0, ?_, ?_⟩ <;> simp [Node.dispatchPayload, outIds, idRun, afterIds]

theorem idRun_snoc (c : Int) (k : Nat) :
    idRun c (k + 1) = idRun c k ++ [afterIds c (k + 1)] := by
  rw [idRun_append k 1 c, afterIds_succ]
  rfl

/-- proceed_message either rejects the addressing (node untouched, nothing
sent) or is exactly the payload dispatch. -/
theorem proceed_message_cases (n : Node) (msg : Message) :
    n.proceed_message msg = (n, [], .error .NodeIdMismatch) ∨
    n.proceed_message msg = n.dispatchPayload msg := by
  unfold Node.proceed_message
  cases n.id with
  | none => exact Or.inr rfl
  | some i =>
    by_cases h : i ≠ msg.dst
    · exact Or.inl (by simp [h])
    · exact Or.inr (by simp [h])

/-- Handling one envelope assigns some number k of ids: all messages written
carry the next k counter values in order, and the counter advances to the
counter after k assignments. -/
theorem handle_message_ids (n : Node) (msg : Message) :
    ∃ k, outIds (n.handle_message msg).2 = idRun n.next_message_id k ∧
      (n.handle_message msg).1.next_message_id
        = afterIds n.next_message_id k := by
  obtain hpc | hpc := proceed_message_cases n msg
  · refine ⟨1, ?_, ?_⟩ <;>
      simp [Node.handle_message, Node.build_reply, hpc, outIds, idRun, afterIds,
        incId, Node.wrap_payload, Node.nextMessageId]
  · obtain ⟨k, hk1, hk2⟩ := dispatchPayload_ids n msg
    cases he : (n.dispatchPayload msg).2.2 with
    | error e =>
      cases e
      case DontReply =>
        refine ⟨k, ?_, ?_⟩ <;>
          simp [Node.handle_message, Node.build_reply, hpc, he, outIds_append,
            hk1, hk2]
      all_goals
        refine ⟨k + 1, ?_, ?_⟩
        · simp only [Node.handle_message, Node.build_reply, hpc, he,
            Option.toList_some, outIds_append, hk1, idRun_snoc, afterIds_succ]
          simp [outIds, Node.wrap_payload, Node.nextMessageId, hk2, incId]
        · simp only [Node.handle_message, Node.build_reply, hpc, he]
          simp [Node.wrap_payload, Node.nextMessageId, hk2, afterIds_succ, incId]
    | ok p =>
      refine ⟨k + 1, ?_, ?_⟩
      · simp only [Node.handle_message, Node.build_reply, hpc, he,
          Option.toList_some, outIds_append, hk1, idRun_snoc, afterIds_succ]
        simp [outIds, Node.wrap_payload, Node.nextMessageId, hk2, incId]
      · simp only [Node.handle_message, Node.build_reply, hpc, he]
        simp [Node.wrap_payload, Node.nextMessageId, hk2, afterIds_succ, incId]

/-- Running the whole message loop assigns some number k of ids: every
message written to the network carries the next counter value in write
order. -/
theorem handle_all_ids (msgs : List Message) (n : Node) :
    ∃ k, outIds (n.handle_all msgs).2 = idRun n.next_message_id k ∧
      (n.handle_all msgs).1.next_message_id = afterIds n.next_message_id k := by
  induction msgs generalizing n with
  | nil => exact ⟨0, rfl, rfl⟩
  | cons m rest ih =>
    obtain ⟨k1, h1, h2⟩ := handle_message_ids n m
    obtain ⟨k2, g1, g2⟩ := ih (n.handle_message m).1
    refine ⟨k1 + k2, ?_, ?_⟩
    · show outIds ((n.handle_message m).2
          ++ ((n.handle_message m).1.handle_all rest).2) = _
      rw [outIds_append, h1, g1, h2, idRun_append]
    · show ((n.handle_message m).1.handle_all rest).1.next_message_id = _
      rw [g2, h2, afterIds_add]

/-- Statement of the amended claim C7 for a run over msgs from the fresh
node: the counter is seeded below zero and the assigned reply message ids are
strictly increasing, hence pairwise distinct. -/
def C7Prop (msgs : List Message) : Prop :=
  Node.new.next_message_id < 0 ∧
  (outIds (Node.new.handle_all msgs).2).Pairwise (· < ·) ∧
  (outIds (Node.new.handle_all msgs).2).Nodup

/-- Claim C7 (amended): as long as fewer than 2^32 ids have been assigned,
the per-process reply message-id counter (seeded at the minimum i32 value,
incremented before each use) hands out strictly increasing, never repeating
msg_id values across any sequence of handled messages. -/
theorem C7_amended_thm (msgs : List Message)
    (h : (outIds (Node.new.handle_all msgs).2).length < 2 ^ 32) :
    C7Prop msgs := by
  obtain ⟨k, h1, h2⟩ := handle_all_ids msgs Node.new
  have hc : Node.new.next_message_id = -(2 ^ 31) := rfl
  rw [hc] at h1
  have hk : k = (outIds (Node.new.handle_all msgs).2).length := by
    rw [h1, idRun_length]
  have hklt : k < 2 ^ 32 := by rw [hk]; exact h
  have e31 : (2 : Int) ^ 31 = 2147483648 := by norm_num
  have e32n : (2 : Nat) ^ 32 = 4294967296 := by norm_num
  have hclosed : outIds (Node.new.handle_all msgs).2
      = (List.range k).map (fun (j : Nat) => -(2 ^ 31) + ((j : Int) + 1)) := by
    rw [h1, idRun_closed]
    apply List.map_congr_left
    intro j hj
    have hjk : j < k := List.mem_range.mp hj
    have hjk2 : (j : Int) + 1 ≤ 4294967295 := by
      have : (j : Int) < (k : Int) := by exact_mod_cast hjk
      have : (k : Int) < 4294967296 := by
        rw [e32n] at hklt
        exact_mod_cast hklt
      omega
    have := afterIds_closed (j + 1) (-(2 ^ 31)) (by norm_num)
      (by push_cast; omega)
    rw [this]
    push_cast
    ring
  refine ⟨by decide, ?_, ?_⟩
  · rw [hclosed]
    refine List.Pairwise.map _ ?_ (List.pairwise_lt_range k)
    intro a b hab
    have : (a : Int) < (b : Int) := by exact_mod_cast hab
    omega
  · rw [hclosed]
    refine List.Pairwise.map _ ?_ (List.pairwise_lt_range k)
    intro a b hab
    have : (a : Int) < (b : Int) := by exact_mod_cast hab
    omega

/-- Witness for claim C7 (amended) on a one-envelope run. -/
theorem C7_witness :
    (outIds (Node.new.handle_all [envTo "n0" 9 .Generate]).2).length < 2 ^ 32 ∧
    C7Prop [envTo "n0" 9 .Generate] :=
  ⟨by decide, C7_amended_thm [envTo "n0" 9 .Generate] (by decide)⟩

/-- The envelope of the C7 wrap-around trace: a generate request, which is
handled even before init, each handling assigning exactly one reply id. -/
def c7_msg : Message := envTo "n0" 1 .Generate

/-- The reply message id assigned while handling one more generate envelope
after k of them have already been handled from the fresh node. -/
def c7_idAt (k : Nat) : Option Int :=
  (((Node.new.handle_all (List.replicate k c7_msg)).1.handle_message
      c7_msg).2.head?).bind (fun m => m.body.msg_id)

/-- Handling a generate envelope on a node without an id: one reply carrying
the next counter value and the next uuid; only the counter and the uuid seed
change. -/
theorem handle_generate (n : Node) (hid : n.id = none) :
    n.handle_message c7_msg
      = ({ n with next_message_id := incId n.next_message_id,
                  uuidSeed := n.uuidSeed + 1 },
         [{ src := "n0", dst := "c1",
            body := { msg_id := some (incId n.next_message_id),
                      in_reply_to := some 1,
                      payload := .GenerateOk n.uuidSeed } }]) := by
  simp [Node.handle_message, Node.build_reply, Node.proceed_message,
    Node.dispatchPayload, hid, c7_msg, envTo, Node.newUuid, Node.wrap_payload,
    Node.nextMessageId, incId]

/-- The node state after handling k generate envelopes from any node without
an id: the counter advances k times and the uuid seed grows by k. -/
theorem handle_all_generate (k : Nat) (n : Node) (hid : n.id = none) :
    (n.handle_all (List.replicate k c7_msg)).1
      = { n with next_message_id := afterIds n.next_message_id k,
                 uuidSeed := n.uuidSeed + k } := by
  induction k generalizing n with
  | zero => cases n; simp [Node.handle_all, afterIds]
  | succ k ih =>
    rw [List.replicate_succ]
    show ((n.handle_message c7_msg).1.handle_all (List.replicate k c7_msg)).1 = _
    have hfst : (n.handle_message c7_msg).1
        = ({ n with next_message_id := incId n.next_message_id,
                    uuidSeed := n.uuidSeed + 1 } : Node) := by
      rw [handle_generate n hid]
    have hid2 : (n.handle_message c7_msg).1.id = none := by
      rw [hfst]
      exact hid
    rw [ih _ hid2, hfst]
    simp [afterIds_incId_comm, afterIds_succ, Node.mk.injEq]
    omega

/-- Closed form of the id assigned to the (k+1)-st generate reply. -/
theorem c7_idAt_closed (k : Nat) :
    c7_idAt k = some (incId (afterIds (-(2 ^ 31)) k)) := by
  unfold c7_idAt
  rw [handle_all_generate k Node.new rfl]
  rw [handle_generate _ rfl]
  simp
  rfl

/-- After 2^32 assignments the wrapping counter is back at its seed. -/
theorem afterIds_wrap : afterIds (-(2 ^ 31)) (2 ^ 32) = -(2 ^ 31) := by
  have h1 : (2 : Nat) ^ 32 = 4294967295 + 1 := by norm_num
  rw [h1, afterIds_succ]
  have h2 : afterIds (-(2 ^ 31)) 4294967295 = -(2 ^ 31) + 4294967295 := by
    apply afterIds_closed
    · norm_num
    · norm_num
  rw [h2]
  decide

/-- Claim C7 (counterexample): the i32 reply counter wraps: the id assigned
to the first generate reply of the trace equals the id assigned to the
(2^32+1)-st one, so over a long enough run the assigned msg_id values repeat
(and are not strictly increasing). -/
theorem C7_counterexample :
    c7_idAt (2 ^ 32) = c7_idAt 0 ∧ c7_idAt 0 = some (-(2 ^ 31) + 1) := by
  have h0 := c7_idAt_closed 0
  have hN := c7_idAt_closed (2 ^ 32)
  rw [afterIds_wrap] at hN
  constructor
  · rw [hN, h0]
    rfl
  · rw [h0]
    decide
